import Mathlib

/-!
Verification of the PlayWise / GrooveX music engine (Python sources) via a
shallow embedding in Lean 4.

Modelling conventions used throughout this file:

* Python `dict` values are modelled as association lists (`List (String × α)`)
  with insertion-order semantics: `dset` updates an existing key in place and
  appends a fresh key at the end (matching CPython's insertion-ordered dicts),
  `ddel` removes a key, `dget` is `dict.get`.
* Python `heapq` is modelled as a bag of entries: `heappush` appends, and the
  read loop of `FavoriteQueue.get_top_n` (which repeatedly pops the minimum)
  is modelled by processing the entries in sorted order (`List.insertionSort`
  by the lexicographic tuple order Python uses to compare heap entries).
* `time.time()` timestamps are modelled by a strictly increasing logical
  clock (`now : Nat`); the code only ever compares timestamps.
* Python integers are `Int`; machine floats do not appear in the favorites
  code (scores in the recommender are modelled over `ℚ`, see below).
-/

/-- Dictionary lookup (`d.get(k)` / `k in d`) on an association list. -/
def dget {α : Type} : List (String × α) → String → Option α
  | [], _ => none
  | (k, v) :: rest, key => if k = key then some v else dget rest key

/-- Dictionary update (`d[k] = v`): replaces the first binding of `k`,
appends at the end when `k` is fresh (CPython insertion order). -/
def dset {α : Type} : List (String × α) → String → α → List (String × α)
  | [], key, v => [(key, v)]
  | (k, w) :: rest, key, v =>
      if k = key then (key, v) :: rest else (k, w) :: dset rest key v

/-- Dictionary deletion (`del d[k]` / `d.pop(k, None)`). -/
def ddel {α : Type} : List (String × α) → String → List (String × α)
  | [], _ => []
  | (k1, v1) :: rest, key =>
      if k1 = key then ddel rest key else (k1, v1) :: ddel rest key

/-- Membership test (`k in d`). -/
def dcontains {α : Type} (m : List (String × α)) (k : String) : Bool :=
  (dget m k).isSome

theorem dget_dset_self {α : Type} (m : List (String × α)) (k : String) (v : α) :
    dget (dset m k v) k = some v := by
  induction m with
  | nil => simp [dset, dget]
  | cons p rest ih =>
      obtain ⟨k1, v1⟩ := p
      by_cases h : k1 = k
      · simp [dset, dget, h]
      · simp [dset, dget, h, ih]

theorem dget_dset_ne {α : Type} (m : List (String × α)) {k k' : String} (v : α)
    (h : k' ≠ k) : dget (dset m k v) k' = dget m k' := by
  induction m with
  | nil => simp [dset, dget, Ne.symm h]
  | cons p rest ih =>
      obtain ⟨k1, v1⟩ := p
      by_cases hk : k1 = k
      · subst hk
        simp [dset, dget, Ne.symm h]
      · by_cases hk' : k1 = k'
        · simp [dset, dget, hk, hk', h]
        · simp [dset, dget, hk, hk', ih]

theorem dget_ddel_self {α : Type} (m : List (String × α)) (k : String) :
    dget (ddel m k) k = none := by
  induction m with
  | nil => simp [ddel, dget]
  | cons p rest ih =>
      obtain ⟨k1, v1⟩ := p
      by_cases h : k1 = k
      · simp [ddel, h, ih]
      · simp [ddel, dget, h, ih]

theorem dget_ddel_ne {α : Type} (m : List (String × α)) {k k' : String}
    (h : k' ≠ k) : dget (ddel m k) k' = dget m k' := by
  induction m with
  | nil => simp [ddel]
  | cons p rest ih =>
      obtain ⟨k1, v1⟩ := p
      by_cases hk : k1 = k
      · subst hk
        simp [ddel, dget, Ne.symm h, ih]
      · by_cases hk' : k1 = k'
        · simp [ddel, dget, hk, hk', h, ih]
        · simp [ddel, dget, hk, hk', ih]

/-! ## FavoriteQueue (src/favorites/favorite_queue.py) -/

/-- Mirrors the `SongSummary` dataclass. -/
structure SongSummary where
  song_id : String
  title : String
  artist : String
  total_listen_time : Int
deriving DecidableEq, Repr

/-- A heap entry `(-total_listen_time, timestamp, song_id)` as pushed by
`record_listen`. -/
abbrev HeapEntry : Type := Int × Nat × String

/-- Lexicographic comparison of heap entries: exactly how Python compares the
tuples `(-total_listen_time, timestamp, song_id)` inside `heapq`. -/
def entryLE (a b : HeapEntry) : Prop :=
  a.1 < b.1 ∨ (a.1 = b.1 ∧ (a.2.1 < b.2.1 ∨ (a.2.1 = b.2.1 ∧ a.2.2 ≤ b.2.2)))

instance : DecidableRel entryLE := fun a b => by
  unfold entryLE
  infer_instance

theorem entryLE_trans {a b c : HeapEntry} (hab : entryLE a b) (hbc : entryLE b c) :
    entryLE a c := by
  obtain ⟨a1, a2, a3⟩ := a
  obtain ⟨b1, b2, b3⟩ := b
  obtain ⟨c1, c2, c3⟩ := c
  unfold entryLE at hab hbc ⊢
  simp only at hab hbc ⊢
  rcases hab with h | ⟨rfl, h⟩
  · rcases hbc with h' | ⟨rfl, h'⟩
    · exact Or.inl (lt_trans h h')
    · exact Or.inl h
  · rcases hbc with h' | ⟨rfl, h'⟩
    · exact Or.inl h'
    · refine Or.inr ⟨rfl, ?_⟩
      rcases h with h | ⟨rfl, h⟩
      · rcases h' with h' | ⟨rfl, h'⟩
        · exact Or.inl (lt_trans h h')
        · exact Or.inl h
      · rcases h' with h' | ⟨rfl, h'⟩
        · exact Or.inl h'
        · exact Or.inr ⟨rfl, le_trans h h'⟩

theorem entryLE_total (a b : HeapEntry) : entryLE a b ∨ entryLE b a := by
  obtain ⟨a1, a2, a3⟩ := a
  obtain ⟨b1, b2, b3⟩ := b
  unfold entryLE
  simp only
  rcases lt_trichotomy a1 b1 with h | h | h
  · left
    left
    exact h
  · subst h
    rcases lt_trichotomy a2 b2 with h2 | h2 | h2
    · left
      right
      exact ⟨rfl, Or.inl h2⟩
    · subst h2
      rcases le_total a3 b3 with h3 | h3
      · left
        right
        exact ⟨rfl, Or.inr ⟨rfl, h3⟩⟩
      · right
        right
        exact ⟨rfl, Or.inr ⟨rfl, h3⟩⟩
    · right
      right
      exact ⟨rfl, Or.inl h2⟩
  · right
    left
    exact h

instance : IsTrans HeapEntry entryLE := ⟨fun _ _ _ => entryLE_trans⟩

instance : IsTotal HeapEntry entryLE := ⟨entryLE_total⟩

/-- State of `FavoriteQueue`: the three structures of `__init__`, plus the
logical clock standing in for `time.time()`. -/
structure FavoriteQueue where
  song_listen_times : List (String × Int)
  heap : List HeapEntry
  favorites : List (String × (String × String))
  now : Nat
deriving DecidableEq, Repr

/-- Mirrors `FavoriteQueue.__init__`. -/
def FavoriteQueue.empty : FavoriteQueue := ⟨[], [], [], 0⟩

/-- Mirrors `FavoriteQueue.add_to_favorites`. -/
def FavoriteQueue.add_to_favorites (fq : FavoriteQueue) (song_id title artist : String) :
    FavoriteQueue :=
  if dcontains fq.favorites song_id then fq
  else
    { fq with
      favorites := dset fq.favorites song_id (title, artist)
      song_listen_times :=
        if dcontains fq.song_listen_times song_id then fq.song_listen_times
        else dset fq.song_listen_times song_id 0 }

/-- Mirrors `FavoriteQueue.remove_from_favorites` (leaves `song_listen_times`
and the heap untouched — lazy deletion). -/
def FavoriteQueue.remove_from_favorites (fq : FavoriteQueue) (song_id : String) :
    FavoriteQueue :=
  if dcontains fq.favorites song_id then
    { fq with favorites := ddel fq.favorites song_id }
  else fq

/-- Mirrors `FavoriteQueue.record_listen`: updates the authoritative total and
pushes a fresh heap entry carrying the new total and the current timestamp. -/
def FavoriteQueue.record_listen (fq : FavoriteQueue) (song_id : String)
    (delta_seconds : Int) : FavoriteQueue :=
  if dcontains fq.favorites song_id then
    let newTotal :=
      if dcontains fq.song_listen_times song_id then
        (dget fq.song_listen_times song_id).getD 0 + delta_seconds
      else delta_seconds
    { fq with
      song_listen_times := dset fq.song_listen_times song_id newTotal
      heap := fq.heap ++ [(-newTotal, fq.now, song_id)]
      now := fq.now + 1 }
  else fq

/-- Validity check of the `get_top_n` loop: the song is still tracked, still a
favorite, and the entry's carried total matches the authoritative total. -/
def FavoriteQueue.entryValid (lt : List (String × Int))
    (fav : List (String × (String × String))) (e : HeapEntry) : Bool :=
  dcontains lt e.2.2 && dcontains fav e.2.2 &&
    decide ((dget lt e.2.2).getD 0 = -e.1)

/-- Builds the `SongSummary` returned for a valid entry. -/
def FavoriteQueue.summaryOf (fav : List (String × (String × String)))
    (e : HeapEntry) : SongSummary :=
  let ta := (dget fav e.2.2).getD ("", "")
  ⟨e.2.2, ta.1, ta.2, -e.1⟩

/-- The `while` loop of `get_top_n` over the entries in heap-pop (sorted)
order: returns the accumulated summaries and the entries that remain in the
heap afterwards (valid popped entries are pushed back, stale ones are
discarded, unpopped ones stay). -/
def FavoriteQueue.getTopLoop (lt : List (String × Int))
    (fav : List (String × (String × String))) :
    Nat → List HeapEntry → List SongSummary × List HeapEntry
  | _, [] => ([], [])
  | 0, hs => ([], hs)
  | n + 1, e :: hs =>
      if entryValid lt fav e then
        (summaryOf fav e :: (getTopLoop lt fav n hs).1,
          e :: (getTopLoop lt fav n hs).2)
      else getTopLoop lt fav (n + 1) hs

/-- Sorting the heap bag gives the order in which `heapq.heappop` delivers
the entries. -/
def FavoriteQueue.sortHeap (h : List HeapEntry) : List HeapEntry :=
  List.insertionSort entryLE h

/-- Mirrors `FavoriteQueue.get_top_n`: returns the result list and the state
after the read.  A non-positive `n` yields an empty result (the Python loop
guard `len(result) < n` fails immediately). -/
def FavoriteQueue.get_top_n (fq : FavoriteQueue) (n : Int) :
    List SongSummary × FavoriteQueue :=
  let p := getTopLoop fq.song_listen_times fq.favorites n.toNat (sortHeap fq.heap)
  (p.1, { fq with heap := p.2 })

/-- The valid entries that `get_top_n fq n` reports, in rank order. -/
def FavoriteQueue.topEntries (fq : FavoriteQueue) (n : Int) : List HeapEntry :=
  ((sortHeap fq.heap).filter (entryValid fq.song_listen_times fq.favorites)).take n.toNat

theorem FavoriteQueue.getTopLoop_fst (lt : List (String × Int))
    (fav : List (String × (String × String))) (hs : List HeapEntry) :
    ∀ n : Nat, (getTopLoop lt fav n hs).1 =
      ((hs.filter (entryValid lt fav)).take n).map (summaryOf fav) := by
  induction hs with
  | nil => intro n; cases n <;> simp [getTopLoop]
  | cons e hs ih =>
      intro n
      cases n with
      | zero => simp [getTopLoop]
      | succ n =>
          by_cases h : entryValid lt fav e
          · simp [getTopLoop, h, ih n, List.filter_cons]
          · simp [getTopLoop, h, ih (n + 1), List.filter_cons]

theorem FavoriteQueue.getTopLoop_snd_sublist (lt : List (String × Int))
    (fav : List (String × (String × String))) (hs : List HeapEntry) :
    ∀ n : Nat, (getTopLoop lt fav n hs).2.Sublist hs := by
  induction hs with
  | nil => intro n; cases n <;> simp [getTopLoop]
  | cons e hs ih =>
      intro n
      cases n with
      | zero => simp [getTopLoop]
      | succ n =>
          by_cases h : entryValid lt fav e
          · simpa [getTopLoop, h] using (ih n).cons₂ e
          · simpa [getTopLoop, h] using (ih (n + 1)).cons e

theorem FavoriteQueue.getTopLoop_idem (lt : List (String × Int))
    (fav : List (String × (String × String))) (hs : List HeapEntry) :
    ∀ n : Nat, getTopLoop lt fav n ((getTopLoop lt fav n hs).2) =
      getTopLoop lt fav n hs := by
  induction hs with
  | nil => intro n; cases n <;> simp [getTopLoop]
  | cons e hs ih =>
      intro n
      cases n with
      | zero => simp [getTopLoop]
      | succ n =>
          by_cases h : entryValid lt fav e
          · simp [getTopLoop, h, ih n]
          · simp [getTopLoop, h, ih (n + 1)]

theorem FavoriteQueue.entryLE_of_sorted_heap (fq : FavoriteQueue) :
    List.Sorted entryLE (sortHeap fq.heap) :=
  List.sorted_insertionSort entryLE fq.heap

theorem FavoriteQueue.pairwise_topEntries (fq : FavoriteQueue) (n : Int) :
    List.Pairwise entryLE (topEntries fq n) := by
  have hsub : (topEntries fq n).Sublist (sortHeap fq.heap) :=
    (List.take_sublist _ _).trans (List.filter_sublist _)
  exact List.Pairwise.sublist hsub (entryLE_of_sorted_heap fq)

theorem FavoriteQueue.get_top_n_fst_eq (fq : FavoriteQueue) (n : Int) :
    (fq.get_top_n n).1 = (topEntries fq n).map (summaryOf fq.favorites) := by
  simp only [FavoriteQueue.get_top_n, topEntries]
  exact getTopLoop_fst fq.song_listen_times fq.favorites (sortHeap fq.heap) n.toNat

/-- C1: every song returned by `FavoriteQueue.get_top_n n` is currently a
member of the favorites map, the result is ordered by non-increasing total
listen time, and it has at most `n` entries. -/
theorem C1_get_top_n_sound (fq : FavoriteQueue) (n : Int) :
    (∀ s ∈ (fq.get_top_n n).1, dcontains fq.favorites s.song_id = true) ∧
    ((fq.get_top_n n).1.length : Int) ≤ max n 0 ∧
    List.Pairwise (fun a b : SongSummary => b.total_listen_time ≤ a.total_listen_time)
      (fq.get_top_n n).1 := by
  have hfst := FavoriteQueue.get_top_n_fst_eq fq n
  refine ⟨?_, ?_, ?_⟩
  · intro s hs
    rw [hfst] at hs
    obtain ⟨e, he, rfl⟩ := List.mem_map.mp hs
    have he' : e ∈ (FavoriteQueue.sortHeap fq.heap).filter
        (FavoriteQueue.entryValid fq.song_listen_times fq.favorites) :=
      List.mem_of_mem_take he
    have hv := List.of_mem_filter he'
    simp only [FavoriteQueue.entryValid, Bool.and_eq_true] at hv
    exact hv.1.2
  · rw [hfst]
    simp only [List.length_map]
    have h1 : (FavoriteQueue.topEntries fq n).length ≤ n.toNat := by
      simp [FavoriteQueue.topEntries]
    calc ((FavoriteQueue.topEntries fq n).length : Int)
        ≤ (n.toNat : Int) := by exact_mod_cast h1
      _ ≤ max n 0 := by omega
  · rw [hfst]
    refine List.Pairwise.map _ ?_ (FavoriteQueue.pairwise_topEntries fq n)
    intro a b hab
    have h1 : a.1 ≤ b.1 := by
      rcases hab with h | ⟨h, _⟩
      · exact le_of_lt h
      · exact le_of_eq h
    simp only [FavoriteQueue.summaryOf]
    omega

/-- C7: a second `get_top_n` read with the same `n` and no intervening writes
returns the identical ordered result (and leaves the state unchanged again):
the read reinserts the valid entries it popped. -/
theorem C7_get_top_n_read_stable (fq : FavoriteQueue) (n : Int) :
    (fq.get_top_n n).2.get_top_n n = fq.get_top_n n := by
  have hsub := FavoriteQueue.getTopLoop_snd_sublist fq.song_listen_times fq.favorites
    (FavoriteQueue.sortHeap fq.heap) n.toNat
  have hsorted : List.Sorted entryLE
      ((FavoriteQueue.getTopLoop fq.song_listen_times fq.favorites n.toNat
        (FavoriteQueue.sortHeap fq.heap)).2) :=
    List.Pairwise.sublist hsub (FavoriteQueue.entryLE_of_sorted_heap fq)
  have hre : FavoriteQueue.sortHeap
      ((FavoriteQueue.getTopLoop fq.song_listen_times fq.favorites n.toNat
        (FavoriteQueue.sortHeap fq.heap)).2) =
      (FavoriteQueue.getTopLoop fq.song_listen_times fq.favorites n.toNat
        (FavoriteQueue.sortHeap fq.heap)).2 :=
    List.Sorted.insertionSort_eq hsorted
  have hidem := FavoriteQueue.getTopLoop_idem fq.song_listen_times fq.favorites
    (FavoriteQueue.sortHeap fq.heap) n.toNat
  simp only [FavoriteQueue.get_top_n, hre, hidem]

/-- The tie-breaking behaviour claimed by the spec for `get_top_n`: among two
distinct returned songs with equal total listen time, the later-inserted
(larger-timestamp) entry would be ranked earlier. -/
def FavoriteQueue.laterInsertedWinsTies (fq : FavoriteQueue) (n : Int) : Prop :=
  List.Pairwise
    (fun e1 e2 : HeapEntry => e1.1 = e2.1 → e1.2.2 ≠ e2.2.2 → e2.2.1 < e1.2.1)
    (fq.topEntries n)

/-- A queue holding two favorites with equal listen totals, `"a"` recorded
before `"b"`. -/
def fqC8 : FavoriteQueue :=
  ((((FavoriteQueue.empty.add_to_favorites "a" "TitleA" "ArtistA").add_to_favorites
      "b" "TitleB" "ArtistB").record_listen "a" 5).record_listen "b" 5)

/-- C8 counterexample: in `fqC8` the songs `"a"` and `"b"` are both returned
by `get_top_n 2` with the same total listen time `5`, yet `"a"` — the
EARLIER-inserted entry (timestamp 0 versus 1) — is ranked first, so the
later-inserted entry is not ranked earlier: the min-heap pops the smaller
timestamp first on ties. -/
theorem C8_counterexample :
    (fqC8.get_top_n 2).1.map SongSummary.song_id = ["a", "b"] ∧
    (fqC8.get_top_n 2).1.map SongSummary.total_listen_time = [5, 5] ∧
    fqC8.topEntries 2 = [(-5, 0, "a"), (-5, 1, "b")] ∧
    ¬ fqC8.laterInsertedWinsTies 2 := by
  refine ⟨by decide, by decide, by decide, ?_⟩
  intro h
  have h5 : fqC8.topEntries 2 = [(-5, 0, "a"), (-5, 1, "b")] := by decide
  rw [FavoriteQueue.laterInsertedWinsTies, h5] at h
  have hlt := List.rel_of_pairwise_cons h (List.mem_singleton.mpr rfl) rfl (by decide)
  exact absurd hlt (by decide)

/-- C8 (amended): when two returned songs have equal total listen time the
tie is broken by insertion order with the EARLIER-inserted (smaller
timestamp) entry ranked first; the returned summaries are exactly the valid
entries of the heap in rank order. -/
theorem C8_amended_ties_earlier_first (fq : FavoriteQueue) (n : Int) :
    (fq.get_top_n n).1 = (fq.topEntries n).map (FavoriteQueue.summaryOf fq.favorites) ∧
    List.Pairwise
      (fun e1 e2 : HeapEntry => e1.1 = e2.1 → e1.2.1 ≤ e2.2.1)
      (fq.topEntries n) := by
  refine ⟨FavoriteQueue.get_top_n_fst_eq fq n, ?_⟩
  refine (FavoriteQueue.pairwise_topEntries fq n).imp ?_
  intro a b hab heq
  rcases hab with h | ⟨_, h | ⟨h2, _⟩⟩
  · omega
  · exact le_of_lt h
  · exact le_of_eq h2

/-- C9: `add_to_favorites` for a song whose listen time is already tracked
leaves `song_listen_times` unchanged, and a `remove_from_favorites` followed
by `add_to_favorites` of the same id restores membership while preserving the
accumulated listen-time map throughout. -/
theorem C9_readd_preserves_listen_time (fq : FavoriteQueue)
    (song_id title artist : String)
    (h : dcontains fq.song_listen_times song_id = true) :
    (fq.add_to_favorites song_id title artist).song_listen_times =
      fq.song_listen_times ∧
    dcontains ((fq.remove_from_favorites song_id).add_to_favorites song_id
      title artist).favorites song_id = true ∧
    ((fq.remove_from_favorites song_id).add_to_favorites song_id
      title artist).song_listen_times = fq.song_listen_times := by
  simp only [dcontains] at h
  refine ⟨?_, ?_, ?_⟩
  · by_cases hf : (dget fq.favorites song_id).isSome = true
    · simp [FavoriteQueue.add_to_favorites, dcontains, hf]
    · simp [FavoriteQueue.add_to_favorites, dcontains, hf, h]
  · by_cases hf : (dget fq.favorites song_id).isSome = true
    · simp [FavoriteQueue.remove_from_favorites, FavoriteQueue.add_to_favorites,
        dcontains, hf, dget_ddel_self, dget_dset_self]
    · simp [FavoriteQueue.remove_from_favorites, FavoriteQueue.add_to_favorites,
        dcontains, hf, dget_dset_self]
  · by_cases hf : (dget fq.favorites song_id).isSome = true
    · simp [FavoriteQueue.remove_from_favorites, FavoriteQueue.add_to_favorites,
        dcontains, hf, dget_ddel_self, h]
    · simp [FavoriteQueue.remove_from_favorites, FavoriteQueue.add_to_favorites,
        dcontains, hf, h]

/-- Concrete queue with a tracked listen total for `"x"`. -/
def fqC9 : FavoriteQueue :=
  (FavoriteQueue.empty.add_to_favorites "x" "T" "A").record_listen "x" 7

/-- Witness for C9 at a concrete queue. -/
theorem C9_witness :
    (fqC9.add_to_favorites "x" "T2" "A2").song_listen_times =
      fqC9.song_listen_times ∧
    dcontains ((fqC9.remove_from_favorites "x").add_to_favorites "x"
      "T2" "A2").favorites "x" = true ∧
    ((fqC9.remove_from_favorites "x").add_to_favorites "x"
      "T2" "A2").song_listen_times = fqC9.song_listen_times :=
  C9_readd_preserves_listen_time fqC9 "x" "T2" "A2" (by decide)

/-! ## Song, normalization, admission filters
(src/playlist/song.py, src/playlist/artist_blocklist.py,
src/song_lookup_map/duplicate_cleaner.py, src/song_lookup_map/lookup_map.py) -/

/-- Mirrors the `Song` entity (all mutable fields, including `play_count`). -/
structure Song where
  song_id : Option String
  title : String
  artist : String
  duration : Int
  genre : Option String
  play_count : Nat
deriving DecidableEq, Repr

instance : Inhabited Song := ⟨⟨none, "", "", 0, none, 0⟩⟩

/-- Mirrors the `Song` constructor: `play_count` starts at 0. -/
def Song.mk0 (title artist : String) (duration : Int) (song_id : Option String)
    (genre : Option String) : Song :=
  ⟨song_id, title, artist, duration, genre, 0⟩

/-- Strip of leading and trailing whitespace (Python `str.strip`), written
over the character list so that it evaluates inside the kernel. -/
def strTrim (s : String) : String :=
  ⟨((s.toList.dropWhile Char.isWhitespace).reverse.dropWhile
      Char.isWhitespace).reverse⟩

/-- Lowercasing (ASCII model of Python `str.lower`). -/
def strLower (s : String) : String :=
  ⟨s.toList.map Char.toLower⟩

/-- Replaces each maximal run of whitespace with a single space; carries a
flag recording whether the previous character was whitespace.  Models the
regex substitution in `duplicate_cleaner.normalize`. -/
def collapseWS : Bool → List Char → List Char
  | _, [] => []
  | prevWS, c :: rest =>
      if c.isWhitespace then
        if prevWS then collapseWS true rest else ' ' :: collapseWS true rest
      else c :: collapseWS false rest

/-- Mirrors `duplicate_cleaner.normalize`: strip, lowercase, collapse runs of
whitespace (ASCII model of Python `str.lower` and `\s`). -/
def pyNormalize (text : String) : String :=
  if text = "" then ""
  else ⟨collapseWS false (strLower (strTrim text)).toList⟩

/-- Mirrors `ArtistBlocklist._normalize_artist`: strip and lowercase only. -/
def normalize_artist (artist : String) : String :=
  if artist = "" then "" else strLower (strTrim artist)

/-- Blocklist state: a set of normalized artist names (duplicate-free list). -/
structure ArtistBlocklist where
  blocked_artists : List String
deriving DecidableEq, Repr

/-- Mirrors `ArtistBlocklist.is_blocked`. -/
def ArtistBlocklist.is_blocked (bl : ArtistBlocklist) (artist : String) : Bool :=
  bl.blocked_artists.contains (normalize_artist artist)

/-- Mirrors `ArtistBlocklist.add_artist` (set insertion). -/
def ArtistBlocklist.add_artist (bl : ArtistBlocklist) (artist : String) :
    ArtistBlocklist :=
  if bl.blocked_artists.contains (normalize_artist artist) then bl
  else ⟨bl.blocked_artists ++ [normalize_artist artist]⟩

/-- Mirrors `DuplicateCleaner`: dedupe policy plus the composite-key registry
(values are the registered songs' ids, which may be `None`). -/
structure DuplicateCleaner where
  keep : String
  key_to_song_id : List (String × Option String)
deriving DecidableEq, Repr

/-- Mirrors `DuplicateCleaner._make_key`. -/
def DuplicateCleaner.make_key (title artist : String) : String :=
  pyNormalize title ++ "|" ++ pyNormalize artist

/-- Mirrors `DuplicateCleaner.register`. -/
def DuplicateCleaner.register (dc : DuplicateCleaner) (song_id : Option String)
    (title artist : String) : DuplicateCleaner :=
  { dc with
    key_to_song_id :=
      dset dc.key_to_song_id (DuplicateCleaner.make_key title artist) song_id }

/-- Mirrors `DuplicateCleaner.deregister` (the `song_id` argument is unused by
the Python code as well). -/
def DuplicateCleaner.deregister (dc : DuplicateCleaner) (song_id : Option String)
    (title artist : String) : DuplicateCleaner :=
  { dc with
    key_to_song_id :=
      ddel dc.key_to_song_id (DuplicateCleaner.make_key title artist) }

/-- Mirrors `DuplicateCleaner.cleanup_on_add`: on a duplicate under policy
`"first"` the registered id is returned unchanged (note that a registered
`None` id is returned as Python `None`, which callers read as success); any
other policy falls through and re-registers. -/
def DuplicateCleaner.cleanup_on_add (dc : DuplicateCleaner) (song : Song) :
    Option String × DuplicateCleaner :=
  match dget dc.key_to_song_id (DuplicateCleaner.make_key song.title song.artist) with
  | some existing_song_id =>
      if dc.keep = "first" then (existing_song_id, dc)
      else (none, dc.register song.song_id song.title song.artist)
  | none => (none, dc.register song.song_id song.title song.artist)

/-- Mirrors `SongLookupMap`: id and title maps plus the optional cleaner. -/
structure SongLookupMap where
  id_map : List (String × Song)
  title_map : List (String × Song)
  enable_dedupe : Bool
  duplicate_cleaner : Option DuplicateCleaner
deriving DecidableEq, Repr

/-- Mirrors `SongLookupMap.__init__`. -/
def SongLookupMap.init (enable_dedupe : Bool) (dedupe_policy : String) :
    SongLookupMap :=
  ⟨[], [], enable_dedupe, if enable_dedupe then some ⟨dedupe_policy, []⟩ else none⟩

/-- The unconditional part of `SongLookupMap.add_song`: update both maps and
re-register with the cleaner when dedupe is enabled. -/
def SongLookupMap.addToMaps (lm : SongLookupMap) (song : Song) : SongLookupMap :=
  { lm with
    id_map :=
      match song.song_id with
      | some sid => dset lm.id_map sid song
      | none => lm.id_map
    title_map := dset lm.title_map song.title song
    duplicate_cleaner :=
      match lm.duplicate_cleaner with
      | some dc =>
          if lm.enable_dedupe then
            some (dc.register song.song_id song.title song.artist)
          else some dc
      | none => none }

/-- Mirrors `SongLookupMap.add_song`: duplicate check first (early return on
a non-`None` duplicate result, leaving the maps untouched), then map updates
and re-registration. -/
def SongLookupMap.add_song (lm : SongLookupMap) (song : Song) :
    Option String × SongLookupMap :=
  match lm.duplicate_cleaner, lm.enable_dedupe with
  | some dc, true =>
      match dc.cleanup_on_add song with
      | (some dup, dc1) => (some dup, { lm with duplicate_cleaner := some dc1 })
      | (none, dc1) =>
          (none, SongLookupMap.addToMaps { lm with duplicate_cleaner := some dc1 } song)
  | _, _ => (none, SongLookupMap.addToMaps lm song)

/-- Mirrors `SongLookupMap.remove_song`: pops the id map unconditionally; the
title map and the cleaner registration are cleaned up only when the title is
still present. -/
def SongLookupMap.remove_song (lm : SongLookupMap) (song_id : String) :
    Bool × SongLookupMap :=
  match dget lm.id_map song_id with
  | none => (false, lm)
  | some song =>
      if dcontains lm.title_map song.title then
        (true,
          { lm with
            id_map := ddel lm.id_map song_id
            title_map := ddel lm.title_map song.title
            duplicate_cleaner :=
              match lm.duplicate_cleaner with
              | some dc =>
                  if lm.enable_dedupe then
                    some (dc.deregister song.song_id song.title song.artist)
                  else some dc
              | none => none })
      else (false, { lm with id_map := ddel lm.id_map song_id })

/-! ## Playlist with undo log (src/playlist/playlist.py,
src/playlist/playlist_engine.py, src/playlist/action_logger.py).

The doubly linked list is modelled by its song sequence (`List Song`); node
surgery becomes positional take/drop splicing.  The reversible closures of
`ActionLogger` are modelled as tagged records (`Action`) interpreted by
`Playlist.applyUndo`, each carrying exactly the data the Python closure
captures.  A raised `IndexError` is modelled by `none`. -/

/-- Positional insertion: models the node splicing of
`Playlist._insert_song_at_index` / `DoublyLinkedList`. -/
def listInsertAt {α : Type} (l : List α) (i : Nat) (a : α) : List α :=
  l.take i ++ a :: l.drop i

/-- Positional removal: models `DoublyLinkedList.delete_song`'s unlinking. -/
def listEraseAt {α : Type} (l : List α) (i : Nat) : List α :=
  l.take i ++ l.drop (i + 1)

/-- Tagged undo records replacing the captured Python closures: `add` logs
the insertion index, `delete` captures the removed song object and its index,
`move` captures the two indices, `reverse` needs no payload. -/
inductive PlaylistAction where
  | add (index : Nat)
  | del (song : Song) (index : Nat)
  | move (from_index to_index : Int)
  | rev
deriving DecidableEq, Repr

/-- The `action_type` string logged with each action. -/
def PlaylistAction.typeName : PlaylistAction → String
  | .add _ => "add"
  | .del _ _ => "delete"
  | .move _ _ => "move"
  | .rev => "reverse"

/-- Playlist state: song sequence, lookup map, blocklist, and the bounded
undo stack (newest first, capped at `max_history` like `deque(maxlen=...)`). -/
structure Playlist where
  songs : List Song
  lookup_map : SongLookupMap
  artist_blocklist : ArtistBlocklist
  action_history : List PlaylistAction
  max_history : Nat
deriving DecidableEq, Repr

/-- Mirrors `Playlist.__init__`. -/
def Playlist.init (enable_dedupe : Bool) (dedupe_policy : String)
    (max_undo_history : Nat) : Playlist :=
  ⟨[], SongLookupMap.init enable_dedupe dedupe_policy, ⟨[]⟩, [], max_undo_history⟩

/-- The default `Playlist()` constructor arguments. -/
def Playlist.empty : Playlist := Playlist.init true "first" 50

/-- Mirrors `ActionLogger.log_action` with the `deque(maxlen)` cap: pushing
when full evicts the oldest entry. -/
def Playlist.logAction (p : Playlist) (a : PlaylistAction) : Playlist :=
  { p with action_history := (a :: p.action_history).take p.max_history }

/-- Mirrors `Playlist.add_song`: blocklist check, then dedupe via the lookup
map (early rejection returns the duplicate/sentinel and leaves the playlist
unchanged), then append and log. -/
def Playlist.add_song (p : Playlist) (title artist : String) (duration : Int)
    (genre : Option String) (song_id : Option String) : Option String × Playlist :=
  if p.artist_blocklist.is_blocked artist then (some "BLOCKED_ARTIST", p)
  else
    let song := Song.mk0 title artist duration song_id genre
    let r := p.lookup_map.add_song song
    match r.1 with
    | some dup => (some dup, { p with lookup_map := r.2 })
    | none =>
        let index := p.songs.length
        (none,
          Playlist.logAction
            { p with lookup_map := r.2, songs := p.songs ++ [song] }
            (PlaylistAction.add index))

/-- Mirrors `Playlist.add_existing_song` (no logging, takes the song object
as is — in particular its `play_count`). -/
def Playlist.add_existing_song (p : Playlist) (song : Song) :
    Option String × Playlist :=
  if p.artist_blocklist.is_blocked song.artist then (some "BLOCKED_ARTIST", p)
  else
    let r := p.lookup_map.add_song song
    match r.1 with
    | some dup => (some dup, { p with lookup_map := r.2 })
    | none => (none, { p with lookup_map := r.2, songs := p.songs ++ [song] })

/-- Mirrors `Playlist.delete_song`: `none` is the raised `IndexError`; on a
valid index the song is removed from the lookup map (when it has an id) and
from the sequence, and a `delete` action is logged. -/
def Playlist.delete_song (p : Playlist) (index : Int) : Option Playlist :=
  if index < 0 ∨ (p.songs.length : Int) ≤ index then none
  else
    let i := index.toNat
    let song := p.songs.getD i default
    let lm1 :=
      match song.song_id with
      | some sid => (p.lookup_map.remove_song sid).2
      | none => p.lookup_map
    some (Playlist.logAction
      { p with lookup_map := lm1, songs := listEraseAt p.songs i }
      (PlaylistAction.del song i))

/-- Mirrors `Playlist._insert_song_at_index` for the (non-negative) indices
the undo path produces: head insertion, tail append beyond the end, or a
middle splice; the lookup map is updated first and its result ignored. -/
def Playlist.insert_song_at_index (p : Playlist) (song : Song) (index : Nat) :
    Playlist :=
  { p with
    lookup_map := (p.lookup_map.add_song song).2
    songs :=
      if index = 0 then song :: p.songs
      else if p.songs.length ≤ index then p.songs ++ [song]
      else listInsertAt p.songs index song }

/-- Mirrors `DoublyLinkedList.move_song`: bounds check, then unlink and
re-splice (`none` is the raised `IndexError`). -/
def dllMove (l : List Song) (f t : Int) : Option (List Song) :=
  if f < 0 ∨ (l.length : Int) ≤ f ∨ t < 0 ∨ (l.length : Int) ≤ t then none
  else if f = t then some l
  else
    let moved := l.getD f.toNat default
    let l1 := listEraseAt l f.toNat
    some (if t = 0 then moved :: l1 else listInsertAt l1 t.toNat moved)

/-- Interprets one undo record, mirroring the captured closures: undoing an
`add` calls `delete_song` (which logs a new `delete` action and can raise),
undoing a `delete` reconstructs the song from the captured fields (a fresh
`Song`, so `play_count` restarts at 0) and reinserts it, undoing a `move`
moves back, undoing a `reverse` reverses again. -/
def Playlist.applyUndo (p : Playlist) : PlaylistAction → Option Playlist
  | .add index => p.delete_song index
  | .del song index =>
      some (p.insert_song_at_index
        (Song.mk0 song.title song.artist song.duration song.song_id song.genre) index)
  | .move f t =>
      match dllMove p.songs t f with
      | some l1 => some { p with songs := l1 }
      | none => none
  | .rev => some { p with songs := p.songs.reverse }

/-- The loop of `ActionLogger.undo_last_n_actions`: pops the newest action,
runs its undo (errors propagate), and records its type. -/
def Playlist.undoLoop : Nat → Playlist → List String → Option (List String × Playlist)
  | 0, p, acc => some (acc.reverse, p)
  | k + 1, p, acc =>
      match p.action_history with
      | [] => some (acc.reverse, p)
      | a :: rest =>
          match Playlist.applyUndo { p with action_history := rest } a with
          | some p1 => Playlist.undoLoop k p1 (a.typeName :: acc)
          | none => none

/-- Mirrors `ActionLogger.undo_last_n_actions` (via `Playlist.undo_last_n_actions`):
non-positive `n` is a no-op, otherwise `n` is clamped to the history length. -/
def Playlist.undo_last_n_actions (p : Playlist) (n : Int) :
    Option (List String × Playlist) :=
  if n ≤ 0 then some ([], p)
  else Playlist.undoLoop (min n.toNat p.action_history.length) p []

theorem Playlist.insert_song_at_index_songs (p : Playlist) (song : Song) (i : Nat) :
    (p.insert_song_at_index song i).songs = listInsertAt p.songs i song := by
  unfold Playlist.insert_song_at_index listInsertAt
  by_cases h0 : i = 0
  · subst h0
    simp
  · by_cases hl : p.songs.length ≤ i
    · simp [h0, hl, List.take_of_length_le hl, List.drop_eq_nil_of_le hl]
    · simp [h0, hl]

theorem listInsertAt_listEraseAt {α : Type} (l : List α) (i : Nat)
    (hi : i < l.length) (a : α) :
    listInsertAt (listEraseAt l i) i a = l.take i ++ a :: l.drop (i + 1) := by
  unfold listInsertAt listEraseAt
  have hlen : (l.take i).length = i := by
    simp [List.length_take]
    omega
  rw [List.take_left' hlen, List.drop_left' hlen]

theorem Playlist.delete_song_eq (p : Playlist) (i : Nat) (hi : i < p.songs.length) :
    p.delete_song (i : Int) =
      some (Playlist.logAction
        { p with
          lookup_map :=
            match (p.songs.getD i default).song_id with
            | some sid => (p.lookup_map.remove_song sid).2
            | none => p.lookup_map
          songs := listEraseAt p.songs i }
        (PlaylistAction.del (p.songs.getD i default) i)) := by
  unfold Playlist.delete_song
  rw [if_neg]
  · simp
  · push_neg
    refine ⟨Int.natCast_nonneg i, ?_⟩
    exact_mod_cast hi

/-- C2 (amended): for every playlist with undo capacity at least 1 and every
valid index, `delete_song(index)` immediately followed by
`undo_last_n_actions(1)` reports `["delete"]` and restores, at the original
index, a song carrying the original's `song_id`, `title`, `artist`,
`duration` and `genre` — but a freshly constructed one whose `play_count` is
reset to 0 — leaving the rest of the sequence unchanged. -/
theorem C2_amended_delete_undo_roundtrip (p : Playlist) (i : Nat)
    (hi : i < p.songs.length) (hmax : 1 ≤ p.max_history) :
    ∃ pd pu : Playlist,
      p.delete_song (i : Int) = some pd ∧
      pd.undo_last_n_actions 1 = some (["delete"], pu) ∧
      pu.songs =
        p.songs.take i ++
          Song.mk0 (p.songs.getD i default).title (p.songs.getD i default).artist
            (p.songs.getD i default).duration (p.songs.getD i default).song_id
            (p.songs.getD i default).genre :: p.songs.drop (i + 1) := by
  obtain ⟨m, hm⟩ : ∃ m, p.max_history = m + 1 := ⟨p.max_history - 1, by omega⟩
  set s := p.songs.getD i default with hs
  set pd := Playlist.logAction
    { p with
      lookup_map :=
        match s.song_id with
        | some sid => (p.lookup_map.remove_song sid).2
        | none => p.lookup_map
      songs := listEraseAt p.songs i }
    (PlaylistAction.del s i) with hpd
  set fresh := Song.mk0 s.title s.artist s.duration s.song_id s.genre with hfresh
  set pu := Playlist.insert_song_at_index
    { pd with action_history := p.action_history.take m } fresh i with hpu
  have hhist : pd.action_history =
      PlaylistAction.del s i :: p.action_history.take m := by
    rw [hpd]
    simp [Playlist.logAction, hm, List.take_succ_cons]
  refine ⟨pd, pu, Playlist.delete_song_eq p i hi, ?_, ?_⟩
  · unfold Playlist.undo_last_n_actions
    rw [if_neg (by omega)]
    rw [hhist]
    have hmin : min (1 : Int).toNat
        (PlaylistAction.del s i :: p.action_history.take m).length = 1 := by
      simp
    rw [hmin]
    unfold Playlist.undoLoop
    rw [hhist]
    simp only [Playlist.applyUndo]
    unfold Playlist.undoLoop
    rfl
  · rw [hpu, Playlist.insert_song_at_index_songs]
    have hpds : ({ pd with action_history := p.action_history.take m }).songs =
        listEraseAt p.songs i := rfl
    rw [hpds]
    exact listInsertAt_listEraseAt p.songs i hi fresh

/-- A song whose `play_count` was already incremented (as the PlaybackController
does to songs shared with the playlist). -/
def songC2 : Song := ⟨some "s1", "T", "A", 100, none, 1⟩

/-- A reachable playlist holding `songC2`. -/
def pC2 : Playlist := (Playlist.empty.add_existing_song songC2).2

/-- C2 counterexample: deleting the only song of `pC2` (whose `play_count` is
1) and undoing that single delete yields a sequence whose song has
`play_count` 0 — the undo reconstructs a fresh `Song` from the captured
title/artist/duration/id/genre — so the playlist sequence is NOT equal to the
sequence before the delete. -/
theorem C2_counterexample :
    pC2.songs = [songC2] ∧
    ((pC2.delete_song 0).bind (fun pd => pd.undo_last_n_actions 1)).map
        (fun r => r.2.songs) = some [⟨some "s1", "T", "A", 100, none, 0⟩] ∧
    ([⟨some "s1", "T", "A", 100, none, 0⟩] : List Song) ≠ pC2.songs := by
  refine ⟨by decide, by decide, by decide⟩

/-- Witness for the amended C2 at the concrete playlist `pC2`, index 0. -/
theorem C2_amended_witness :
    ∃ pd pu : Playlist,
      pC2.delete_song ((0 : Nat) : Int) = some pd ∧
      pd.undo_last_n_actions 1 = some (["delete"], pu) ∧
      pu.songs =
        pC2.songs.take 0 ++
          Song.mk0 (pC2.songs.getD 0 default).title (pC2.songs.getD 0 default).artist
            (pC2.songs.getD 0 default).duration (pC2.songs.getD 0 default).song_id
            (pC2.songs.getD 0 default).genre :: pC2.songs.drop (0 + 1) :=
  C2_amended_delete_undo_roundtrip pC2 0 (by decide) (by decide)

/-- C3: `add_song` business rejections leave the playlist unchanged.  A
blocked artist (after case/whitespace normalization) yields the sentinel
`"BLOCKED_ARTIST"`; a registered normalized `(title, artist)` duplicate under
dedupe policy `"first"` (registered under id `eid`) yields that existing id.
Both rejections return a value (no exception) and leave the song sequence,
its size, and the lookup index exactly as they were. -/
theorem C3_add_song_rejections (p : Playlist) (title artist : String)
    (duration : Int) (genre song_id : Option String) :
    (p.artist_blocklist.is_blocked artist = true →
      p.add_song title artist duration genre song_id = (some "BLOCKED_ARTIST", p)) ∧
    (∀ (dc : DuplicateCleaner) (eid : String),
      p.artist_blocklist.is_blocked artist = false →
      p.lookup_map.enable_dedupe = true →
      p.lookup_map.duplicate_cleaner = some dc →
      dc.keep = "first" →
      dget dc.key_to_song_id (DuplicateCleaner.make_key title artist) =
        some (some eid) →
      p.add_song title artist duration genre song_id = (some eid, p)) := by
  constructor
  · intro hb
    simp [Playlist.add_song, hb]
  · intro dc eid hb he hdc hkeep hdup
    have hlm : p.lookup_map.add_song
        (Song.mk0 title artist duration song_id genre) =
        (some eid, { p.lookup_map with duplicate_cleaner := some dc }) := by
      unfold SongLookupMap.add_song
      rw [hdc, he]
      unfold DuplicateCleaner.cleanup_on_add
      simp only [Song.mk0]
      rw [hdup]
      simp [hkeep, he]
    have hlm2 : ({ p.lookup_map with duplicate_cleaner := some dc }) =
        p.lookup_map := by
      rw [← hdc]
    unfold Playlist.add_song
    rw [hb]
    simp only [Bool.false_eq_true, if_false, hlm, hlm2]

/-- A playlist whose blocklist holds the normalized artist `"the band"`. -/
def pC3a : Playlist :=
  { Playlist.empty with
    artist_blocklist := ArtistBlocklist.add_artist ⟨[]⟩ " The Band " }

/-- A playlist already holding `("Hello", "Adele")` under id `"id1"`. -/
def pC3b : Playlist :=
  (Playlist.empty.add_song "Hello" "Adele" 295 none (some "id1")).2

/-- Witness for C3: both rejection branches at concrete playlists. -/
theorem C3_witness :
    pC3a.add_song "Song" "THE BAND" 100 none none =
      (some "BLOCKED_ARTIST", pC3a) ∧
    pC3b.add_song " hello " "ADELE" 300 none (some "id2") = (some "id1", pC3b) := by
  constructor
  · exact (C3_add_song_rejections pC3a "Song" "THE BAND" 100 none none).1 (by decide)
  · exact (C3_add_song_rejections pC3b " hello " "ADELE" 300 none
      (some "id2")).2 ⟨"first", [("hello|adele", some "id1")]⟩ "id1"
      (by decide) (by decide) (by decide) (by decide) (by decide)

/-! ## Alternating merge (Playlist.merge_alternately) -/

/-- The normalized dedupe key of a song. -/
def songKey (s : Song) : String :=
  DuplicateCleaner.make_key s.title s.artist

/-- Folding `add_existing_song` over a list of songs (the drain loops of
`merge_alternately`). -/
def Playlist.addAll (p : Playlist) : List Song → Playlist
  | [] => p
  | s :: rest => Playlist.addAll (p.add_existing_song s).2 rest

/-- The two-pointer loop of `Playlist.merge_alternately`: one song from each
playlist per iteration, then the drain loops. -/
def Playlist.mergeLoop : List Song → List Song → Playlist → Playlist
  | x :: xs, y :: ys, acc =>
      Playlist.mergeLoop xs ys (((acc.add_existing_song x).2).add_existing_song y).2
  | xs, ys, acc => Playlist.addAll (Playlist.addAll acc xs) ys

/-- Mirrors `Playlist.get_all_songs`. -/
def Playlist.get_all_songs (p : Playlist) : List Song := p.songs

/-- Mirrors `Playlist.merge_alternately`: builds a fresh default playlist and
feeds it the two song lists alternately. -/
def Playlist.merge_alternately (p other : Playlist) : Playlist :=
  Playlist.mergeLoop p.get_all_songs other.get_all_songs Playlist.empty

/-- The interleaving order the spec describes: one-for-one until the shorter
list is exhausted, then the longer one's tail in original order. -/
def interleaveSongs : List Song → List Song → List Song
  | x :: xs, y :: ys => x :: y :: interleaveSongs xs ys
  | [], ys => ys
  | xs, [] => xs

theorem Playlist.mergeLoop_eq_addAll :
    ∀ (xs ys : List Song) (acc : Playlist),
      Playlist.mergeLoop xs ys acc = Playlist.addAll acc (interleaveSongs xs ys) := by
  intro xs
  induction xs with
  | nil =>
      intro ys acc
      cases ys <;> simp [Playlist.mergeLoop, interleaveSongs, Playlist.addAll]
  | cons x xs ih =>
      intro ys acc
      cases ys with
      | nil => simp [Playlist.mergeLoop, interleaveSongs, Playlist.addAll]
      | cons y ys =>
          simp only [Playlist.mergeLoop, interleaveSongs, Playlist.addAll]
          exact ih ys _

theorem interleaveSongs_perm :
    ∀ xs ys : List Song, (interleaveSongs xs ys).Perm (xs ++ ys) := by
  intro xs
  induction xs with
  | nil => intro ys; simp [interleaveSongs]
  | cons x xs ih =>
      intro ys
      cases ys with
      | nil => simp [interleaveSongs]
      | cons y ys =>
          simp only [interleaveSongs]
          refine List.Perm.cons x ?_
          exact (List.Perm.cons y (ih ys)).trans List.perm_middle.symm

theorem Playlist.add_existing_song_fresh (p : Playlist) (s : Song)
    (dc : DuplicateCleaner)
    (hb : p.artist_blocklist = ⟨[]⟩)
    (he : p.lookup_map.enable_dedupe = true)
    (hdc : p.lookup_map.duplicate_cleaner = some dc)
    (hk : dget dc.key_to_song_id (songKey s) = none) :
    (p.add_existing_song s).2.songs = p.songs ++ [s] ∧
    (p.add_existing_song s).2.artist_blocklist = ⟨[]⟩ ∧
    (p.add_existing_song s).2.lookup_map.enable_dedupe = true ∧
    (p.add_existing_song s).2.lookup_map.duplicate_cleaner =
      some ((dc.register s.song_id s.title s.artist).register
        s.song_id s.title s.artist) := by
  have hbl : p.artist_blocklist.is_blocked s.artist = false := by
    rw [hb]
    simp [ArtistBlocklist.is_blocked]
  have hlm : p.lookup_map.add_song s =
      (none, SongLookupMap.addToMaps
        { p.lookup_map with
          duplicate_cleaner := some (dc.register s.song_id s.title s.artist) } s) := by
    unfold SongLookupMap.add_song
    rw [hdc, he]
    dsimp only
    unfold DuplicateCleaner.cleanup_on_add
    have hk2 : dget dc.key_to_song_id
        (DuplicateCleaner.make_key s.title s.artist) = none := hk
    rw [hk2]
    simp [he]
  have hadd : p.add_existing_song s =
      (none,
        { p with
          lookup_map := SongLookupMap.addToMaps
            { p.lookup_map with
              duplicate_cleaner :=
                some (dc.register s.song_id s.title s.artist) } s
          songs := p.songs ++ [s] }) := by
    unfold Playlist.add_existing_song
    rw [hbl]
    simp [hlm]
  refine ⟨?_, ?_, ?_, ?_⟩
  · simp [hadd]
  · simp [hadd, SongLookupMap.addToMaps, hb]
  · simp [hadd, SongLookupMap.addToMaps, he]
  · simp [hadd, SongLookupMap.addToMaps, he, DuplicateCleaner.register]

theorem Playlist.addAll_songs :
    ∀ (l : List Song) (p : Playlist) (dc : DuplicateCleaner),
      p.artist_blocklist = ⟨[]⟩ →
      p.lookup_map.enable_dedupe = true →
      p.lookup_map.duplicate_cleaner = some dc →
      (∀ s ∈ l, dget dc.key_to_song_id (songKey s) = none) →
      (l.map songKey).Nodup →
      (Playlist.addAll p l).songs = p.songs ++ l := by
  intro l
  induction l with
  | nil => intro p dc _ _ _ _ _; simp [Playlist.addAll]
  | cons s rest ih =>
      intro p dc hb he hdc hfresh hnodup
      obtain ⟨h1, h2, h3, h4⟩ :=
        Playlist.add_existing_song_fresh p s dc hb he hdc
          (hfresh s (List.mem_cons_self s rest))
      have hfresh2 : ∀ t ∈ rest,
          dget ((dc.register s.song_id s.title s.artist).register
            s.song_id s.title s.artist).key_to_song_id (songKey t) = none := by
        intro t ht
        have hne : songKey t ≠ songKey s := by
          intro heq
          have hmem : songKey s ∈ rest.map songKey :=
            heq ▸ List.mem_map_of_mem songKey ht
          exact (List.nodup_cons.mp hnodup).1 hmem
        simp only [DuplicateCleaner.register]
        rw [show DuplicateCleaner.make_key s.title s.artist = songKey s from rfl]
        rw [dget_dset_ne _ _ hne, dget_dset_ne _ _ hne]
        exact hfresh t (List.mem_cons_of_mem s ht)
      have hrec := ih (p.add_existing_song s).2 _ h2 h3 h4 hfresh2
        (List.nodup_cons.mp hnodup).2
      calc (Playlist.addAll p (s :: rest)).songs
          = (Playlist.addAll (p.add_existing_song s).2 rest).songs := rfl
        _ = (p.add_existing_song s).2.songs ++ rest := hrec
        _ = (p.songs ++ [s]) ++ rest := by rw [h1]
        _ = p.songs ++ s :: rest := by simp

/-- C5 (amended): whenever the songs of the two playlists have pairwise
distinct normalized `(title, artist)` dedupe keys, `merge_alternately`
produces exactly the one-for-one interleaving with the longer playlist's tail
appended (and, being a pure function of the two song lists, touches neither
input).  Without that proviso the fresh result playlist's own dedupe rejects
cross-playlist duplicates (see the counterexample). -/
theorem C5_merge_alternately_interleaves (p q : Playlist)
    (h : ((p.songs ++ q.songs).map songKey).Nodup) :
    (p.merge_alternately q).songs = interleaveSongs p.songs q.songs := by
  unfold Playlist.merge_alternately Playlist.get_all_songs
  rw [Playlist.mergeLoop_eq_addAll]
  have hperm : ((interleaveSongs p.songs q.songs).map songKey).Perm
      (((p.songs ++ q.songs)).map songKey) :=
    (interleaveSongs_perm p.songs q.songs).map songKey
  have hnodup : ((interleaveSongs p.songs q.songs).map songKey).Nodup :=
    hperm.symm.nodup h
  have := Playlist.addAll_songs (interleaveSongs p.songs q.songs)
    Playlist.empty ⟨"first", []⟩ rfl rfl rfl
    (fun s _ => rfl) hnodup
  rw [this]
  rfl

/-- Two songs with distinct ids but the same normalized `(title, artist)`. -/
def sDupA : Song := ⟨some "id1", "Same", "Artist", 100, none, 0⟩

/-- See `sDupA`. -/
def sDupB : Song := ⟨some "id2", "Same", "ARTIST", 120, none, 0⟩

/-- One-song playlist holding `sDupA`. -/
def pM1 : Playlist := (Playlist.empty.add_existing_song sDupA).2

/-- One-song playlist holding `sDupB`. -/
def pM2 : Playlist := (Playlist.empty.add_existing_song sDupB).2

/-- C5 counterexample: merging two one-song playlists whose songs share a
normalized `(title, artist)` key does NOT interleave them — the merged
playlist's own dedupe ("first") rejects the second song, so the result has a
single song instead of the claimed `[A1, B1]`. -/
theorem C5_counterexample :
    pM1.songs = [sDupA] ∧ pM2.songs = [sDupB] ∧
    interleaveSongs pM1.songs pM2.songs = [sDupA, sDupB] ∧
    (pM1.merge_alternately pM2).songs = [sDupA] ∧
    (pM1.merge_alternately pM2).songs ≠ interleaveSongs pM1.songs pM2.songs := by
  refine ⟨by decide, by decide, by decide, by decide, by decide⟩

/-- A four-song playlist with distinct keys `a1..a4`. -/
def pW4 : Playlist :=
  Playlist.addAll Playlist.empty
    [⟨some "a1", "A1", "X1", 1, none, 0⟩, ⟨some "a2", "A2", "X2", 2, none, 0⟩,
     ⟨some "a3", "A3", "X3", 3, none, 0⟩, ⟨some "a4", "A4", "X4", 4, none, 0⟩]

/-- A three-song playlist with distinct keys `b1..b3`. -/
def pW3 : Playlist :=
  Playlist.addAll Playlist.empty
    [⟨some "b1", "B1", "Y1", 1, none, 0⟩, ⟨some "b2", "B2", "Y2", 2, none, 0⟩,
     ⟨some "b3", "B3", "Y3", 3, none, 0⟩]

/-- Witness for the amended C5: the spec's `a=4, b=3` shape
`[A1,B1,A2,B2,A3,B3,A4]`. -/
theorem C5_witness :
    (pW4.merge_alternately pW3).songs =
      [⟨some "a1", "A1", "X1", 1, none, 0⟩, ⟨some "b1", "B1", "Y1", 1, none, 0⟩,
       ⟨some "a2", "A2", "X2", 2, none, 0⟩, ⟨some "b2", "B2", "Y2", 2, none, 0⟩,
       ⟨some "a3", "A3", "X3", 3, none, 0⟩, ⟨some "b3", "B3", "Y3", 3, none, 0⟩,
       ⟨some "a4", "A4", "X4", 4, none, 0⟩] := by
  rw [C5_merge_alternately_interleaves pW4 pW3 (by decide)]
  decide

/-! ## ConstrainedShuffler (src/playlist/constrained_shuffle.py)

`random.shuffle` is modelled by an oracle supplying, for each call, a
permutation of index positions; an oracle value that is not a permutation of
`range n` stands for the identity shuffle, so every oracle models a possible
run of the real randomized code. -/

/-- Applies the index permutation chosen by the randomness oracle. -/
def applyPerm (sigma : List Nat) (l : List Song) : List Song :=
  if sigma.Perm (List.range l.length) then sigma.map (fun i => l.getD i default)
  else l

theorem map_getD_range (l : List Song) :
    (List.range l.length).map (fun i => l.getD i default) = l := by
  apply List.ext_getElem
  · simp
  · intro n h1 h2
    simp only [List.getElem_map, List.getElem_range]
    exact (List.getD_eq_getElem l default h2).symm ▸ rfl

theorem applyPerm_perm (sigma : List Nat) (l : List Song) :
    (applyPerm sigma l).Perm l := by
  unfold applyPerm
  split
  · rename_i h
    have := (h.map (fun i => l.getD i default))
    rw [map_getD_range] at this
    exact this
  · exact List.Perm.refl l

/-- Mirrors `_has_consecutive_artists` (case-insensitive adjacency check). -/
def has_consecutive_artists : List Song → Bool
  | s1 :: s2 :: rest =>
      (strLower s1.artist = strLower s2.artist : Bool) ||
        has_consecutive_artists (s2 :: rest)
  | _ => false

/-- The per-artist play counts of `_is_arrangement_possible` (keys are the
lowercased artist names). -/
def artistCounts (songs : List Song) : List (String × Nat) :=
  songs.foldl
    (fun m s => dset m (strLower s.artist) ((dget m (strLower s.artist)).getD 0 + 1))
    []

/-- The `max(artist_counts.values())` of `_is_arrangement_possible` (only
evaluated on non-empty input, where the 0 fallback is unreachable). -/
def maxArtistCount (songs : List Song) : Nat :=
  ((artistCounts songs).map (fun p => p.2)).foldl max 0

/-- Mirrors `_is_arrangement_possible`: pigeonhole feasibility check,
`ceil(n/2) = (n+1)/2`. -/
def is_arrangement_possible (songs : List Song) : Bool :=
  if songs.length ≤ 1 then true
  else maxArtistCount songs ≤ (songs.length + 1) / 2

/-- The retry loop of `shuffle_with_constraints`: up to `attempts` oracle
shuffles, accepting the first with no adjacent same-artist pair; falls back
to the original order. -/
def shuffleTryLoop (songs : List Song) (oracle : Nat → List Nat) :
    Nat → Nat → List Song
  | 0, _ => songs
  | attempts + 1, i =>
      if has_consecutive_artists (applyPerm (oracle i) songs) then
        shuffleTryLoop songs oracle attempts (i + 1)
      else applyPerm (oracle i) songs

/-- Mirrors `ConstrainedShuffler.shuffle_with_constraints`: short lists are
returned as copies, infeasible inputs get a single uniform shuffle (oracle
call 0), otherwise up to `max_attempts` retries (oracle calls 1, 2, ...),
with the original order as the exhaustion fallback. -/
def shuffle_with_constraints (max_attempts : Nat) (songs : List Song)
    (oracle : Nat → List Nat) : List Song :=
  if songs.length ≤ 1 then songs
  else if !is_arrangement_possible songs then applyPerm (oracle 0) songs
  else shuffleTryLoop songs oracle max_attempts 1

theorem shuffleTryLoop_perm (songs : List Song) (oracle : Nat → List Nat) :
    ∀ (attempts i : Nat), (shuffleTryLoop songs oracle attempts i).Perm songs := by
  intro attempts
  induction attempts with
  | zero => intro i; exact List.Perm.refl songs
  | succ k ih =>
      intro i
      unfold shuffleTryLoop
      split
      · exact ih (i + 1)
      · exact applyPerm_perm (oracle i) songs

theorem shuffleTryLoop_all_fail (songs : List Song) (oracle : Nat → List Nat) :
    ∀ (attempts i : Nat),
      (∀ j, i ≤ j → j < i + attempts →
        has_consecutive_artists (applyPerm (oracle j) songs) = true) →
      shuffleTryLoop songs oracle attempts i = songs := by
  intro attempts
  induction attempts with
  | zero => intro i _; rfl
  | succ k ih =>
      intro i hall
      unfold shuffleTryLoop
      rw [hall i (Nat.le_refl i) (by omega)]
      simp only [if_true]
      exact ih (i + 1) (fun j h1 h2 => hall j (by omega) (by omega))

/-- C4: for every song list and every randomness oracle,
`shuffle_with_constraints` returns a permutation of the same multiset; when
the most frequent (case-insensitive) artist count exceeds `ceil(n/2)` it
returns the single uniform shuffle of oracle call 0 with no further
attempts; and when every attempt within the cap yields an adjacent
same-artist pair it returns the original, unshuffled order. -/
theorem C4_shuffle_with_constraints (max_attempts : Nat) (songs : List Song)
    (oracle : Nat → List Nat) :
    (shuffle_with_constraints max_attempts songs oracle).Perm songs ∧
    ((songs.length + 1) / 2 < maxArtistCount songs →
      shuffle_with_constraints max_attempts songs oracle =
        applyPerm (oracle 0) songs) ∧
    (is_arrangement_possible songs = true → 2 ≤ songs.length →
      (∀ j, 1 ≤ j → j ≤ max_attempts →
        has_consecutive_artists (applyPerm (oracle j) songs) = true) →
      shuffle_with_constraints max_attempts songs oracle = songs) := by
  refine ⟨?_, ?_, ?_⟩
  · unfold shuffle_with_constraints
    split
    · exact List.Perm.refl songs
    · split
      · exact applyPerm_perm (oracle 0) songs
      · exact shuffleTryLoop_perm songs oracle max_attempts 1
  · intro hinf
    have hlen : 2 ≤ songs.length := by
      match songs with
      | [] => simp [maxArtistCount, artistCounts] at hinf
      | [s] => simp [maxArtistCount, artistCounts, dget, dset] at hinf
      | s1 :: s2 :: rest => simp
    have hposs : is_arrangement_possible songs = false := by
      unfold is_arrangement_possible
      rw [if_neg (by omega)]
      simp only [decide_eq_false_iff_not]
      omega
    unfold shuffle_with_constraints
    rw [if_neg (by omega), hposs]
    rfl
  · intro hposs hlen hall
    unfold shuffle_with_constraints
    rw [if_neg (by omega), hposs]
    simp only [Bool.not_true, Bool.false_eq_true, if_false]
    exact shuffleTryLoop_all_fail songs oracle max_attempts 1
      (fun j h1 h2 => hall j h1 (by omega))

/-- Three songs by the same artist: infeasible for the pigeonhole check. -/
def songsC4a : List Song :=
  [⟨some "x1", "T1", "A", 1, none, 0⟩, ⟨some "x2", "T2", "a", 2, none, 0⟩,
   ⟨some "x3", "T3", "A", 3, none, 0⟩]

/-- A feasible list on which the identity shuffle always fails. -/
def songsC4b : List Song :=
  [⟨some "y1", "T1", "A", 1, none, 0⟩, ⟨some "y2", "T2", "A", 2, none, 0⟩,
   ⟨some "y3", "T3", "B", 3, none, 0⟩]

/-- A reversing index oracle. -/
def oracleRev : Nat → List Nat := fun _ => [2, 1, 0]

/-- The identity index oracle. -/
def oracleId : Nat → List Nat := fun _ => [0, 1, 2]

/-- Witness for C4: the infeasible branch returns the oracle-0 shuffle, and
the exhausted-cap branch returns the original order. -/
theorem C4_witness :
    shuffle_with_constraints 1000 songsC4a oracleRev =
      applyPerm (oracleRev 0) songsC4a ∧
    shuffle_with_constraints 2 songsC4b oracleId = songsC4b := by
  constructor
  · exact (C4_shuffle_with_constraints 1000 songsC4a oracleRev).2.1 (by decide)
  · refine (C4_shuffle_with_constraints 2 songsC4b oracleId).2.2 (by decide)
      (by decide) (fun j h1 h2 => ?_)
    show has_consecutive_artists (applyPerm [0, 1, 2] songsC4b) = true
    decide


/-! ## SmartRecommender (src/recommend/recommender.py)

The injected collaborators are explicit parameters: `explorer` models
`PlaylistExplorer.search` (its set result is a duplicate-free list in the
oracle's iteration order), `skipped` models
`RecentlySkippedTracker.is_recently_skipped`, and `playlist_songs` is the
snapshot the `playlist_songs_getter` would return.  Python's falsy test on
strings is `optTruthy`.

Float scores are modelled exactly as fractions (`Score`): the weights
1.0 / 0.8 / 0.6 / 0.5 / 0.4 become 1, 4/5, 3/5, 1/2, 2/5 and `round(x, 2)`
becomes exact round-half-up; no claim below depends on float rounding.
`Score` is a raw numerator/denominator pair with cross-multiplication
comparisons (the library rationals are not kernel-evaluable here); every
denominator built by the code is positive except in states where the Python
code itself would divide by zero (a zero threshold with equal durations). -/

/-- Exact-fraction stand-in for the float similarity scores. -/
structure Score where
  num : Int
  den : Int
deriving DecidableEq, Repr

/-- The score `n / d`. -/
def Score.frac (n d : Int) : Score := ⟨n, d⟩

/-- The integer score `n`. -/
def Score.ofInt (n : Int) : Score := ⟨n, 1⟩

/-- Score addition. -/
def Score.add (a b : Score) : Score := ⟨a.num * b.den + b.num * a.den, a.den * b.den⟩

/-- Score subtraction. -/
def Score.sub (a b : Score) : Score := ⟨a.num * b.den - b.num * a.den, a.den * b.den⟩

/-- Score multiplication. -/
def Score.mul (a b : Score) : Score := ⟨a.num * b.num, a.den * b.den⟩

/-- Comparison by cross-multiplication (order-correct for positive
denominators). -/
def Score.le (a b : Score) : Prop := a.num * b.den ≤ b.num * a.den

/-- Strict comparison by cross-multiplication. -/
def Score.lt (a b : Score) : Prop := a.num * b.den < b.num * a.den

instance : DecidableRel Score.le := fun a b => by
  unfold Score.le
  infer_instance

instance : DecidableRel Score.lt := fun a b => by
  unfold Score.lt
  infer_instance

/-- Python `max(0, s)` for a nonnegative-denominator score. -/
def Score.max0 (s : Score) : Score := if s.num < 0 then ⟨0, 1⟩ else s

/-- Metadata record: `dict.get('…')` string fields default to `None`,
numeric fields to 0. -/
structure RecMeta where
  genre : Option String
  subgenre : Option String
  mood : Option String
  artist : Option String
  duration : Int
  bpm : Int
deriving DecidableEq, Repr

/-- Python truthiness of an optional string (`None` and `""` are falsy). -/
def optTruthy : Option String → Bool
  | some s => !(s = "" : Bool)
  | none => false

/-- The criteria dict passed to `PlaylistExplorer.search` (subgenre/mood keys
present only when truthy in the seed's metadata). -/
structure SearchCriteria where
  genre : String
  subgenre : Option String
  mood : Option String
deriving DecidableEq, Repr

/-- Mirrors the `Recommendation` dataclass. -/
structure Recommendation where
  song_id : String
  score : Score
  reason : String
deriving DecidableEq, Repr

/-- Recommender state: configuration plus the play window (oldest first,
capped), the unbounded played set, metadata and listen-time tables. -/
structure SmartRecommender where
  window_size : Nat
  seed_count : Int
  top_n : Int
  duration_threshold : Int
  bpm_threshold : Int
  max_candidates_per_seed : Nat
  play_window : List (String × Int)
  played_set : List String
  song_metadata : List (String × RecMeta)
  total_listen_time : List (String × Int)
deriving DecidableEq, Repr

/-- The default constructor configuration. -/
def SmartRecommender.init : SmartRecommender :=
  ⟨50, 5, 10, 120, 10, 200, [], [], [], []⟩

/-- Bounded append of `deque(maxlen=cap)`: evicts the oldest entry. -/
def pushWindow (l : List (String × Int)) (cap : Nat) (x : String × Int) :
    List (String × Int) :=
  (l ++ [x]).drop ((l ++ [x]).length - cap)

/-- Mirrors `SmartRecommender.record_play`. -/
def SmartRecommender.record_play (st : SmartRecommender) (song_id : String)
    (played_at play_duration : Int) (metadata : Option RecMeta) :
    SmartRecommender :=
  { st with
    play_window := pushWindow st.play_window st.window_size (song_id, played_at)
    played_set :=
      if song_id ∈ st.played_set then st.played_set
      else st.played_set ++ [song_id]
    total_listen_time :=
      dset st.total_listen_time song_id
        ((dget st.total_listen_time song_id).getD 0 + play_duration)
    song_metadata :=
      match metadata with
      | some m => dset st.song_metadata song_id m
      | none => st.song_metadata }

/-- Mirrors `_get_similar_songs`: empty without seed metadata or a truthy
genre; otherwise the explorer's bucket minus the seed itself. -/
def SmartRecommender.get_similar_songs (st : SmartRecommender)
    (explorer : SearchCriteria → List String) (seed_song_id : String) :
    List String :=
  match dget st.song_metadata seed_song_id with
  | none => []
  | some meta =>
      if optTruthy meta.genre then
        ((explorer
            ⟨meta.genre.getD "",
              if optTruthy meta.subgenre then meta.subgenre else none,
              if optTruthy meta.mood then meta.mood else none⟩).dedup).filter
          (fun c => !(c = seed_song_id : Bool))
      else []

/-- Mirrors `_calculate_similarity_score`: weighted sum of genre, subgenre
and mood matches plus linearly decaying duration and BPM proximity terms. -/
def SmartRecommender.similarity (st : SmartRecommender)
    (seed_id candidate_id : String) : Score × String :=
  match dget st.song_metadata seed_id, dget st.song_metadata candidate_id with
  | some sm, some cm =>
      let sg := strLower (sm.genre.getD "")
      let cg := strLower (cm.genre.getD "")
      let genreHit := sg ≠ "" ∧ cg ≠ "" ∧ sg = cg
      let ssg := strLower (sm.subgenre.getD "")
      let csg := strLower (cm.subgenre.getD "")
      let subgenreHit := ssg ≠ "" ∧ csg ≠ "" ∧ ssg = csg
      let smo := strLower (sm.mood.getD "")
      let cmo := strLower (cm.mood.getD "")
      let moodHit := smo ≠ "" ∧ cmo ≠ "" ∧ smo = cmo
      let dd := if cm.duration - sm.duration < 0 then sm.duration - cm.duration
        else cm.duration - sm.duration
      let durGate := 0 < sm.duration ∧ 0 < cm.duration ∧ dd ≤ st.duration_threshold
      let ds := Score.max0 ((Score.ofInt 1).sub (Score.frac dd st.duration_threshold))
      let bd := if cm.bpm - sm.bpm < 0 then sm.bpm - cm.bpm else cm.bpm - sm.bpm
      let bpmGate := 0 < sm.bpm ∧ 0 < cm.bpm ∧ bd ≤ st.bpm_threshold
      let bs := Score.max0 ((Score.ofInt 1).sub (Score.frac bd st.bpm_threshold))
      let score :=
        ((((if genreHit then Score.ofInt 1 else Score.ofInt 0).add
          (if subgenreHit then Score.frac 4 5 else Score.ofInt 0)).add
          (if moodHit then Score.frac 3 5 else Score.ofInt 0)).add
          (if durGate then (Score.frac 1 2).mul ds else Score.ofInt 0)).add
          (if bpmGate then (Score.frac 2 5).mul bs else Score.ofInt 0)
      let reasons : List String :=
        (if genreHit then ["same genre"] else []) ++
          (if subgenreHit then ["same subgenre"] else []) ++
          (if moodHit then ["same mood"] else []) ++
          (if durGate ∧ Score.lt (Score.frac 1 2) ds then
            ["similar duration (±" ++ toString dd ++ "s)"] else []) ++
          (if bpmGate ∧ Score.lt (Score.frac 1 2) bs then
            ["similar BPM (±" ++ toString bd ++ ")"] else [])
      (score,
        if reasons = [] then "minimal similarity"
        else String.intercalate ", " reasons)
  | _, _ => (Score.ofInt 0, "Missing metadata")

/-- Python's `arg or default` for the optional int arguments: `None` and `0`
both fall back to the configured default. -/
def pyOr (arg : Option Int) (dflt : Int) : Int :=
  match arg with
  | some v => if v = 0 then dflt else v
  | none => dflt

/-- The seed-selection loop: newest-first scan collecting distinct ids until
`seed_count` is reached. -/
def collectSeeds (seed_count : Int) :
    List (String × Int) → List String → List String
  | [], acc => acc.reverse
  | (sid, _) :: rest, acc =>
      if seed_count ≤ (acc.length : Int) then acc.reverse
      else if sid ∈ acc then collectSeeds seed_count rest acc
      else collectSeeds seed_count rest (sid :: acc)

/-- The active-playlist exclusion set: ids of the snapshot that are truthy
(non-`None` AND non-empty — the Python comprehension tests `if song.song_id`). -/
def activeIds (playlist_songs : List Song) : List String :=
  (playlist_songs.filterMap Song.song_id).filter (fun s => !(s = "" : Bool))

/-- The three `continue` filters of the candidate loop. -/
def passesFilters (st : SmartRecommender) (skipped : String → Bool)
    (active : List String) (exclude_active : Bool) (cand : String) : Bool :=
  !(st.played_set.contains cand) && !(skipped cand) &&
    !(exclude_active && active.contains cand)

/-- One candidate step of the scoring loop: filtered candidates are skipped;
positive scores accumulate into the (insertion-ordered) score and reason
dicts. -/
def scoreStep (st : SmartRecommender) (skipped : String → Bool)
    (active : List String) (exclude_active : Bool) (seed : String)
    (ab : List (String × Score) × List (String × List String)) (cand : String) :
    List (String × Score) × List (String × List String) :=
  if passesFilters st skipped active exclude_active cand then
    let sr := st.similarity seed cand
    if Score.lt (Score.ofInt 0) sr.1 then
      (dset ab.1 cand (((dget ab.1 cand).getD (Score.ofInt 0)).add sr.1),
        dset ab.2 cand ((dget ab.2 cand).getD [] ++ [sr.2]))
    else ab
  else ab

/-- The outer loop over the seeds. -/
def scoreSeeds (st : SmartRecommender) (skipped : String → Bool)
    (active : List String) (exclude_active : Bool)
    (explorer : SearchCriteria → List String) :
    List String → (List (String × Score) × List (String × List String)) →
      List (String × Score) × List (String × List String)
  | [], ab => ab
  | seed :: rest, ab =>
      scoreSeeds st skipped active exclude_active explorer rest
        (((st.get_similar_songs explorer seed).take
            st.max_candidates_per_seed).foldl
          (scoreStep st skipped active exclude_active seed) ab)

/-- Python list slicing `l[:n]` for a possibly negative `n`. -/
def pySlice {β : Type} (l : List β) (n : Int) : List β :=
  if 0 ≤ n then l.take n.toNat else l.take (l.length - (-n).toNat)

/-- Exact model of `round(x, 2)` (round half up, positive denominators). -/
def round2 (s : Score) : Score :=
  ⟨Int.fdiv (200 * s.num + s.den) (2 * s.den), 100⟩

/-- The body of `recommend` after the `or`-defaulting of its arguments:
seed selection, candidate scoring, stable descending sort, top-N cut. -/
def SmartRecommender.recommendEff (st : SmartRecommender)
    (explorer : SearchCriteria → List String) (skipped : String → Bool)
    (playlist_songs : List Song) (seed_count top_n : Int)
    (exclude_active_playlist : Bool) : List Recommendation :=
  let seeds := collectSeeds seed_count st.play_window.reverse []
  if seeds = [] then []
  else
    let active :=
      if exclude_active_playlist then activeIds playlist_songs else []
    let scored :=
      scoreSeeds st skipped active exclude_active_playlist explorer seeds ([], [])
    let sortedCands :=
      List.insertionSort (fun a b : String × Score => Score.le b.2 a.2) scored.1
    (pySlice sortedCands top_n).map (fun p =>
      ⟨p.1, round2 p.2,
        if ((dget scored.2 p.1).getD []).dedup = [] then "similar to recent plays"
        else String.intercalate "; " ((dget scored.2 p.1).getD []).dedup⟩)

/-- Mirrors `SmartRecommender.recommend`: `seed_count or self.seed_count`,
`top_n or self.top_n`, then the pipeline. -/
def SmartRecommender.recommend (st : SmartRecommender)
    (explorer : SearchCriteria → List String) (skipped : String → Bool)
    (playlist_songs : List Song) (seed_count top_n : Option Int)
    (exclude_active_playlist : Bool) : List Recommendation :=
  st.recommendEff explorer skipped playlist_songs (pyOr seed_count st.seed_count)
    (pyOr top_n st.top_n) exclude_active_playlist

theorem dget_isSome_of_mem {α : Type} :
    ∀ (m : List (String × α)) (k : String) (v : α),
      (k, v) ∈ m → (dget m k).isSome = true := by
  intro m
  induction m with
  | nil => intro k v h; cases h
  | cons p rest ih =>
      intro k v h
      obtain ⟨k1, v1⟩ := p
      rcases List.mem_cons.mp h with h1 | h1
      · obtain ⟨rfl, rfl⟩ := Prod.mk.injEq .. ▸ h1
        simp [dget]
      · by_cases hk : k1 = k
        · simp [dget, hk]
        · simpa [dget, hk] using ih k v h1

theorem scoreFold_sound (st : SmartRecommender) (skipped : String → Bool)
    (active : List String) (exclude_active : Bool) (seed : String) :
    ∀ (cands : List String)
      (ab : List (String × Score) × List (String × List String)) (k : String),
      (dget (cands.foldl (scoreStep st skipped active exclude_active seed) ab).1
        k).isSome = true →
      (dget ab.1 k).isSome = true ∨
        passesFilters st skipped active exclude_active k = true := by
  intro cands
  induction cands with
  | nil => intro ab k h; exact Or.inl h
  | cons c rest ih =>
      intro ab k h
      rcases ih (scoreStep st skipped active exclude_active seed ab c) k h
        with h1 | h1
      · unfold scoreStep at h1
        by_cases hp : passesFilters st skipped active exclude_active c = true
        · rw [if_pos hp] at h1
          by_cases hs : Score.lt (Score.ofInt 0) (st.similarity seed c).1
          · rw [if_pos hs] at h1
            simp only at h1
            by_cases hk : k = c
            · subst hk
              exact Or.inr hp
            · rw [dget_dset_ne _ _ hk] at h1
              exact Or.inl h1
          · rw [if_neg hs] at h1
            exact Or.inl h1
        · rw [if_neg hp] at h1
          exact Or.inl h1
      · exact Or.inr h1

theorem scoreSeeds_sound (st : SmartRecommender) (skipped : String → Bool)
    (active : List String) (exclude_active : Bool)
    (explorer : SearchCriteria → List String) :
    ∀ (seeds : List String)
      (ab : List (String × Score) × List (String × List String)) (k : String),
      (dget (scoreSeeds st skipped active exclude_active explorer seeds ab).1
        k).isSome = true →
      (dget ab.1 k).isSome = true ∨
        passesFilters st skipped active exclude_active k = true := by
  intro seeds
  induction seeds with
  | nil => intro ab k h; exact Or.inl h
  | cons seed rest ih =>
      intro ab k h
      rcases ih _ k h with h1 | h1
      · rcases scoreFold_sound st skipped active exclude_active seed _ ab k h1
          with h2 | h2
        · exact Or.inl h2
        · exact Or.inr h2
      · exact Or.inr h1

/-- C6 (amended): no recommendation carries a song_id from the all-time
played set, nor one reported recently skipped; with
`exclude_active_playlist = true` no recommendation carries an id from the
snapshot-derived exclusion set — which contains exactly the snapshot's
TRUTHY ids (the comprehension `if song.song_id` drops a playlist song whose
id is the empty string, see the counterexample). -/
theorem C6_amended_recommend_filters (st : SmartRecommender)
    (explorer : SearchCriteria → List String) (skipped : String → Bool)
    (playlist_songs : List Song) (seed_count top_n : Option Int)
    (exclude_active_playlist : Bool) :
    ∀ r ∈ st.recommend explorer skipped playlist_songs seed_count top_n
        exclude_active_playlist,
      st.played_set.contains r.song_id = false ∧
      skipped r.song_id = false ∧
      (exclude_active_playlist = true →
        (activeIds playlist_songs).contains r.song_id = false) := by
  intro r hr
  unfold SmartRecommender.recommend SmartRecommender.recommendEff at hr
  by_cases hseeds :
      collectSeeds (pyOr seed_count st.seed_count) st.play_window.reverse [] = []
  · rw [if_pos hseeds] at hr
    cases hr
  · rw [if_neg hseeds] at hr
    simp only at hr
    obtain ⟨p, hp, hrp⟩ := List.mem_map.mp hr
    have hp1 : p ∈ List.insertionSort (fun a b : String × Score => Score.le b.2 a.2)
        (scoreSeeds st skipped
          (if exclude_active_playlist then activeIds playlist_songs else [])
          exclude_active_playlist explorer
          (collectSeeds (pyOr seed_count st.seed_count) st.play_window.reverse [])
          ([], [])).1 := by
      unfold pySlice at hp
      split at hp
      · exact List.mem_of_mem_take hp
      · exact List.mem_of_mem_take hp
    have hp2 : p ∈ (scoreSeeds st skipped
        (if exclude_active_playlist then activeIds playlist_songs else [])
        exclude_active_playlist explorer
        (collectSeeds (pyOr seed_count st.seed_count) st.play_window.reverse [])
        ([], [])).1 :=
      (List.perm_insertionSort _ _).mem_iff.mp hp1
    have hsome := dget_isSome_of_mem _ p.1 p.2 (by simpa using hp2)
    have hpass := scoreSeeds_sound st skipped
      (if exclude_active_playlist then activeIds playlist_songs else [])
      exclude_active_playlist explorer _ ([], []) p.1 hsome
    rcases hpass with hbad | hpass
    · simp [dget] at hbad
    · have hid : r.song_id = p.1 := by rw [← hrp]
      rw [hid]
      unfold passesFilters at hpass
      simp only [Bool.and_eq_true, Bool.not_eq_true'] at hpass
      obtain ⟨⟨hplayed, hskip⟩, hactive⟩ := hpass
      refine ⟨hplayed, hskip, ?_⟩
      intro hex
      rw [hex] at hactive
      simpa [hex] using hactive

/-- Rock metadata with no numeric fields. -/
def metaRock : RecMeta := ⟨some "rock", none, none, none, 0, 0⟩

/-- A recommender that has played `"s1"` (genre rock). -/
def stC6base : SmartRecommender :=
  SmartRecommender.init.record_play "s1" 0 100 (some metaRock)

/-- The same state with metadata registered for the empty-string id (the
repo's demos populate `song_metadata` directly for unplayed songs). -/
def stC6 : SmartRecommender :=
  { stC6base with song_metadata := dset stC6base.song_metadata "" metaRock }

/-- An explorer whose rock bucket holds the empty-string id. -/
def explorerC6 : SearchCriteria → List String := fun _ => [""]

/-- A playlist snapshot containing a song whose id is the empty string. -/
def plC6 : List Song := [⟨some "", "t", "a", 10, none, 0⟩]

/-- C6 counterexample: with `exclude_active_playlist = true`, the song with
id `""` is in the live playlist snapshot yet is still recommended — the
exclusion set is built with the truthiness test `if song.song_id`, which
drops falsy ids, so the claim as stated fails. -/
theorem C6_counterexample :
    plC6.map Song.song_id = [some ""] ∧
    (stC6.recommend explorerC6 (fun _ => false) plC6 none none true).map
        Recommendation.song_id = [""] := by
  refine ⟨by decide, by decide⟩

/-- A recommender that has played `"s1"` and knows metadata for the unplayed
candidate `"c1"` (same genre). -/
def stW6 : SmartRecommender :=
  { stC6base with song_metadata := dset stC6base.song_metadata "c1" metaRock }

/-- An explorer whose rock bucket holds `"c1"`. -/
def explorerW6 : SearchCriteria → List String := fun _ => ["c1"]

/-- The recommendation `stW6` produces. -/
def recW6 : Recommendation := ⟨"c1", round2 (Score.ofInt 0 |>.add ⟨1, 1⟩), "same genre"⟩

/-- Witness for the amended C6 at a concrete state and recommendation. -/
theorem C6_amended_witness :
    stW6.played_set.contains recW6.song_id = false ∧
    (fun _ : String => false) recW6.song_id = false ∧
    (true = true → (activeIds ([] : List Song)).contains recW6.song_id = false) :=
  C6_amended_recommend_filters stW6 explorerW6 (fun _ => false) [] none none true
    recW6 (by decide)

/-- C10: a zero (or `None`) `seed_count` / `top_n` argument is replaced by
the configured default because the Python code combines them with `or`; in
particular `recommend(seed_count=0)` can return non-empty results. -/
theorem C10_zero_args_fall_back_to_defaults (st : SmartRecommender)
    (explorer : SearchCriteria → List String) (skipped : String → Bool)
    (playlist_songs : List Song) (seed_count top_n : Option Int)
    (exclude_active_playlist : Bool) :
    st.recommend explorer skipped playlist_songs (some 0) top_n
        exclude_active_playlist =
      st.recommend explorer skipped playlist_songs none top_n
        exclude_active_playlist ∧
    st.recommend explorer skipped playlist_songs seed_count (some 0)
        exclude_active_playlist =
      st.recommend explorer skipped playlist_songs seed_count none
        exclude_active_playlist ∧
    stW6.recommend explorerW6 (fun _ => false) [] (some 0) none true ≠ [] := by
  refine ⟨rfl, rfl, by decide⟩
